import Mathlib

/-!
Verification development for the CNKI search automation server
(`cnki_mcp_server.py`): a shallow embedding of its pure helpers
(alias resolution, fuzzy title matching), of the browser session pool
state machine, of the row/page extraction pipeline and pagination
collector, and of the public tool wrappers, together with proofs of
the behavioural properties claimed for them.

Modelling conventions:
- Python dicts carrying heterogeneous payloads are embedded as a small
  JSON-like value type `JVal`; dict key lookup is association-list lookup.
- Python `str.lower()` is embedded as ASCII case folding and
  `str.strip()` as trimming of blanks/tabs/newlines; the strings the
  program actually looks up (ASCII aliases and Chinese canonical names)
  are unaffected by the difference on exotic Unicode.
- External browser calls (DOM queries, navigation, teardown) are
  nondeterministic inputs: each call site is parameterised by its
  outcome (value found, element absent, or exception raised), and the
  embedding mirrors exactly how the Python control flow reacts to each
  outcome. `Except` models Python exceptions: an `Except.error` result
  of a whole operation is an exception escaping it uncaught.
-/

/-- ASCII case folding of one character, embedding the effect of Python
`str.lower()` on the character sets the program handles. -/
def lowerChar (c : Char) : Char :=
  if 'A' ≤ c ∧ c ≤ 'Z' then Char.ofNat (c.toNat + 32) else c

/-- Embedding of Python `str.lower()`. -/
def lowerStr (s : String) : String :=
  ⟨s.data.map lowerChar⟩

/-- Blank characters removed by Python `str.strip()`. -/
def isSpaceChar (c : Char) : Bool :=
  c = ' ' ∨ c = '\t' ∨ c = '\n' ∨ c = '\r'

/-- Embedding of Python `str.strip()`: trim blanks from both ends. -/
def stripStr (s : String) : String :=
  ⟨((s.data.dropWhile isSpaceChar).reverse.dropWhile isSpaceChar).reverse⟩

/-- The `SEARCH_TYPES` table: canonical Chinese search-field names and
their backend field codes. -/
def SEARCH_TYPES : List (String × String) :=
  [("主题", "SU"), ("篇关摘", "TKA"), ("关键词", "KY"), ("篇名", "TI"),
   ("全文", "FT"), ("作者", "AU"), ("第一作者", "FI"), ("通讯作者", "RP"),
   ("作者单位", "AF"), ("基金", "FU"), ("摘要", "AB"), ("参考文献", "RF"),
   ("分类号", "CLC"), ("文献来源", "LY"), ("DOI", "DOI")]

/-- The `SEARCH_TYPE_ALIASES` table: English aliases for the canonical
search-field names. -/
def SEARCH_TYPE_ALIASES : List (String × String) :=
  [("subject", "主题"), ("theme", "主题"), ("keyword", "关键词"),
   ("keywords", "关键词"), ("title", "篇名"), ("author", "作者"),
   ("first_author", "第一作者"), ("corresponding_author", "通讯作者"),
   ("affiliation", "作者单位"), ("institution", "作者单位"),
   ("fund", "基金"), ("abstract", "摘要"), ("fulltext", "全文"),
   ("reference", "参考文献"), ("source", "文献来源"), ("doi", "DOI")]

/-- The `SORT_TYPES` table: canonical sort names and their control ids. -/
def SORT_TYPES : List (String × String) :=
  [("相关度", "FFD"), ("发表时间", "PT"), ("被引", "CF"),
   ("下载", "DFR"), ("综合", "ZH")]

/-- The `SORT_TYPE_ALIASES` table: English aliases for the sort names. -/
def SORT_TYPE_ALIASES : List (String × String) :=
  [("relevance", "相关度"), ("date", "发表时间"), ("publish_time", "发表时间"),
   ("time", "发表时间"), ("cited", "被引"), ("citation", "被引"),
   ("citations", "被引"), ("download", "下载"), ("downloads", "下载"),
   ("composite", "综合"), ("general", "综合")]

/-- Embedding of `resolve_search_type`: empty input falls to the default;
the lowered-and-stripped input is tried against the alias table; the
verbatim input is tried against the canonical table; otherwise the
default field 主题 is returned. -/
def resolve_search_type (search_type : String) : String :=
  if search_type = "" then "主题"
  else
    match SEARCH_TYPE_ALIASES.lookup (stripStr (lowerStr search_type)) with
    | some v => v
    | none => if (SEARCH_TYPES.lookup search_type).isSome then search_type else "主题"

/-- Embedding of `resolve_sort_type`, same structure as
`resolve_search_type` with the sort tables and default 相关度. -/
def resolve_sort_type (sort_type : String) : String :=
  if sort_type = "" then "相关度"
  else
    match SORT_TYPE_ALIASES.lookup (stripStr (lowerStr sort_type)) with
    | some v => v
    | none => if (SORT_TYPES.lookup sort_type).isSome then sort_type else "相关度"

/-- The field resolver as the specification words it (for comparison
with `resolve_search_type`): the normalized (lowered, trimmed) input is
looked up in the alias table, then in the canonical-name table, and
otherwise the default is returned. -/
def resolve_search_type_claim (search_type : String) : String :=
  let s := stripStr (lowerStr search_type)
  match SEARCH_TYPE_ALIASES.lookup s with
  | some v => v
  | none => if (SEARCH_TYPES.lookup s).isSome then s else "主题"

/-- The sort resolver as the specification words it (for comparison
with `resolve_sort_type`). -/
def resolve_sort_type_claim (sort_type : String) : String :=
  let s := stripStr (lowerStr sort_type)
  match SORT_TYPE_ALIASES.lookup s with
  | some v => v
  | none => if (SORT_TYPES.lookup s).isSome then s else "相关度"

/-- Score of one candidate `t` against the query `title`, embedding
`sum(c in t for c in title)`: the count of characters of the query that
occur anywhere in the candidate (per query character, membership only). -/
def commonChars (title t : String) : Nat :=
  (title.data.filter (fun c => t.data.contains c)).length

/-- The loop of `find_closest_title`: `i` is the index of the next
candidate, `maxSim` the running maximum score, `best` the index of the
current best candidate; only a strictly greater score updates them. -/
def fctAux (title : String) : List String → Nat → Nat → Nat → Nat
  | [], _, _, best => best
  | t :: rest, i, maxSim, best =>
    if commonChars title t > maxSim then fctAux title rest (i + 1) (commonChars title t) i
    else fctAux title rest (i + 1) maxSim best

/-- Embedding of `find_closest_title`: index of the best-scoring
candidate, starting from running maximum 0 and best index 0. -/
def find_closest_title (title : String) (result_titles : List String) : Nat :=
  fctAux title result_titles 0 0 0

/-- State of the `BrowserPool` singleton: the current browser Session
(identified by a numeric instance id, `none` when absent), whether the
underlying playwright engine has been started, the `_last_used`
timestamp, and a fresh-id counter standing for allocation of new
browser instances (a freshly launched browser is a new object, so its
id differs from every previously allocated one). -/
structure PoolState where
  browser : Option Nat
  pwStarted : Bool
  lastUsed : Int
  nextId : Nat
deriving Repr, DecidableEq

/-- The `IDLE_TIMEOUT` constant of `BrowserPool` (600 seconds). -/
def IDLE_TIMEOUT : Int := 600

/-- Observable lifecycle events of one `get_page` acquisition, in
program order: teardown of an old Session, launch of a fresh one, and
the grant of the page lease (the new page belongs to the named
Session instance). -/
inductive PoolEvent where
  | teardown (b : Nat)
  | create (b : Nat)
  | lease (b : Nat)
deriving Repr, DecidableEq

/-- Embedding of `BrowserPool.get_page`. The whole decision region runs
under `self._lock`, so it is modelled as one atomic step: with the
current time `now` and the liveness report `alive` of the held browser,
an expired Session (`now - _last_used > IDLE_TIMEOUT`) is closed, a
dead one is merely forgotten, a missing one is recreated, `_last_used`
is set to `now` inside the same region, and the returned page lease is
a fresh page of the Session held at the end of the region. Returns the
new state, the Session instance the leased page belongs to, and the
event trace. -/
def BrowserPool.get_page (s : PoolState) (now : Int) (alive : Bool) :
    PoolState × Nat × List PoolEvent :=
  let s1ev :=
    match s.browser with
    | some b =>
      if now - s.lastUsed > IDLE_TIMEOUT then
        ({ s with browser := none }, [PoolEvent.teardown b])
      else if alive then (s, ([] : List PoolEvent))
      else ({ s with browser := none }, ([] : List PoolEvent))
    | none => (s, ([] : List PoolEvent))
  let s1 := s1ev.1
  let s2bid :=
    match s1.browser with
    | none =>
      ({ s1 with browser := some s1.nextId, pwStarted := true, nextId := s1.nextId + 1 },
       s1.nextId, [PoolEvent.create s1.nextId])
    | some b => (s1, b, ([] : List PoolEvent))
  ({ s2bid.1 with lastUsed := now }, s2bid.2.1,
   s1ev.2 ++ s2bid.2.2 ++ [PoolEvent.lease s2bid.2.1])

/-- Teardown events of `BrowserPool.close`, in program order. -/
inductive CloseEvent where
  | browserClose (b : Nat)
  | playwrightStop
deriving Repr, DecidableEq

/-- Outcome of awaiting `self._browser.close()`; `raises = true` models
the browser process being already gone and the call raising. -/
def browserCloseCall (raises : Bool) : Except String Unit :=
  if raises then Except.error "TargetClosedError" else Except.ok ()

/-- Outcome of awaiting `self._playwright.stop()`. -/
def playwrightStopCall (raises : Bool) : Except String Unit :=
  if raises then Except.error "stop failed" else Except.ok ()

/-- Embedding of `BrowserPool._close_internal`: if a browser is held,
its close call is attempted and any error swallowed, and the reference
is cleared either way. -/
def BrowserPool.close_internal (s : PoolState) (bRaises : Bool) :
    PoolState × List CloseEvent :=
  match s.browser with
  | some b =>
    match browserCloseCall bRaises with
    | Except.ok _ => ({ s with browser := none }, [CloseEvent.browserClose b])
    | Except.error _ => ({ s with browser := none }, [CloseEvent.browserClose b])
  | none => (s, [])

/-- Embedding of `BrowserPool.close`: `_close_internal` under the lock,
then — if the playwright engine was started — its stop call with any
error swallowed. The `Except` result is `Except.error` only when an
exception escapes `close` itself; both teardown faults are caught, so
the embedding shows it never does. -/
def BrowserPool.close (s : PoolState) (bRaises pRaises : Bool) :
    Except String (PoolState × List CloseEvent) :=
  let s1ev := BrowserPool.close_internal s bRaises
  if s1ev.1.pwStarted then
    match playwrightStopCall pRaises with
    | Except.ok _ =>
      Except.ok ({ s1ev.1 with pwStarted := false }, s1ev.2 ++ [CloseEvent.playwrightStop])
    | Except.error _ =>
      Except.ok ({ s1ev.1 with pwStarted := false }, s1ev.2 ++ [CloseEvent.playwrightStop])
  else Except.ok (s1ev.1, s1ev.2)

/-- Outcome of one guarded DOM field access inside `_parse_paper_row`:
the element was found with a value, the element was absent (the query
returned nothing), or the access raised. -/
inductive Fetch (α : Type) where
  | found (a : α)
  | absent
  | raises
deriving DecidableEq, Repr

/-- One result-table row as `_parse_paper_row` observes it: the title
link (inner text and `href` attribute, which Python may report as
`None`), the author links' texts, and the source, date, citation and
download cells. -/
structure Row where
  titleLink : Fetch (String × Option String)
  authorLinks : Fetch (List String)
  sourceLink : Fetch String
  dateCell : Fetch String
  citeLink : Fetch String
  downloadLink : Fetch String
deriving DecidableEq, Repr

/-- A result record as built by `_parse_paper_row` (and tagged by
`_collect_results`): `url` is `Option` because Python stores the raw
`href` which can be `None`; `page` is the source page tag, absent until
the collector sets it. -/
structure Paper where
  title : String
  url : Option String
  authors : List String
  source : String
  date : String
  cited_count : String
  download_count : String
  page : Option Nat
deriving DecidableEq, Repr

/-- Embedding of `_parse_paper_row`: each field block is independently
guarded, so an absent element or a raising access yields that field's
default (empty string, empty list, `"0"` for the counters, and `""` for
`url`/`title` when the title link is absent or its block raises)
without affecting any other field. -/
def _parse_paper_row (row : Row) : Paper where
  title :=
    match row.titleLink with
    | Fetch.found (t, _) => stripStr t
    | Fetch.absent => ""
    | Fetch.raises => ""
  url :=
    match row.titleLink with
    | Fetch.found (_, h) => h
    | Fetch.absent => some ""
    | Fetch.raises => some ""
  authors :=
    match row.authorLinks with
    | Fetch.found ls => (ls.map stripStr).filter (fun a => a ≠ "")
    | Fetch.absent => []
    | Fetch.raises => []
  source :=
    match row.sourceLink with
    | Fetch.found s => stripStr s
    | Fetch.absent => ""
    | Fetch.raises => ""
  date :=
    match row.dateCell with
    | Fetch.found s => stripStr s
    | Fetch.absent => ""
    | Fetch.raises => ""
  cited_count :=
    match row.citeLink with
    | Fetch.found s => stripStr s
    | Fetch.absent => "0"
    | Fetch.raises => "0"
  download_count :=
    match row.downloadLink with
    | Fetch.found s => stripStr s
    | Fetch.absent => "0"
    | Fetch.raises => "0"
  page := none

/-- Embedding of `paper["page"] = page_num` in `_collect_results`. -/
def tagPage (page_num : Nat) (p : Paper) : Paper := { p with page := some page_num }

/-- Outcome of the guarded row-gathering block of one loop iteration of
`_collect_results` (query rows, wait for the table if none, query
again): either a final list of rows, or the block raised and the
`except: pass` swallowed it. -/
inductive RowsResult where
  | ok (rows : List Row)
  | fail
deriving Repr

/-- Outcome of the guarded next-page block: the `#PageNext` control is
present, enabled and the click succeeds (`enabled`), it reports
disabled, it is absent, or locating/testing/clicking it raises; every
outcome but `enabled` breaks the loop. -/
inductive NextOutcome where
  | enabled
  | disabled
  | absent
  | raises
deriving DecidableEq, Repr

/-- The rendered results view at one visit of the loop body. -/
structure ResultPage where
  rowsRes : RowsResult
  next : NextOutcome

/-- Records contributed by one visited page: each visible row is
parsed, rows with an empty title are dropped, the rest are tagged with
the page number in row order; a failed row-gathering block contributes
nothing. -/
def pageRecords (p : ResultPage) (page_num : Nat) : List Paper :=
  match p.rowsRes with
  | RowsResult.fail => []
  | RowsResult.ok rows =>
    ((rows.map _parse_paper_row).filter (fun r => r.title ≠ "")).map (tagPage page_num)

/-- The loop of `_collect_results`: `dom visit` is the rendered view at
the given visit (the page mutates in place, so successive visits see
successive views), `visit + 1` is the 1-based `page_num`, and the
second argument is the number of loop iterations still to run
(`pages - page_num + 1`); the next-page block runs only while
`page_num < pages` and any outcome but an enabled, successful click
breaks the loop. -/
def collectAux (dom : Nat → ResultPage) (visit : Nat) : Nat → List Paper
  | 0 => []
  | remaining + 1 =>
    pageRecords (dom visit) (visit + 1) ++
      (if remaining = 0 then []
       else
         match (dom visit).next with
         | NextOutcome.enabled => collectAux dom (visit + 1) remaining
         | _ => [])

/-- Embedding of `_collect_results page, pages`: run the loop from the
first view with `pages` iterations budgeted. Its total (List-valued)
type embeds the fact that the collector itself never raises: every
fallible step inside is guarded. -/
def _collect_results (dom : Nat → ResultPage) (pages : Nat) : List Paper :=
  collectAux dom 0 pages

/-- The records of the first `k` pages in page order (page numbers
`v + 1 ..= v + k` starting at visit `v`), the reference accumulation
the collector is compared against. -/
def pagesConcat (dom : Nat → ResultPage) (v : Nat) : Nat → List Paper
  | 0 => []
  | k + 1 => pageRecords (dom v) (v + 1) ++ pagesConcat dom (v + 1) k

/-- JSON-like values embedding the Python dict payloads the tools
return. -/
inductive JVal where
  | null
  | bool (b : Bool)
  | num (n : Nat)
  | str (s : String)
  | arr (xs : List JVal)
  | obj (fields : List (String × JVal))

/-- Key lookup in an object payload (Python `result.get(key)` /
`result[key]`). -/
def lookupField (v : JVal) (k : String) : Option JVal :=
  match v with
  | JVal.obj fields => fields.lookup k
  | _ => none

/-- Boolean prefix test on character lists (structural helper for the
substring and suffix tests below). -/
def isPrefixList : List Char → List Char → Bool
  | [], _ => true
  | _ :: _, [] => false
  | a :: as, b :: bs => (a == b) && isPrefixList as bs

/-- Boolean substring test on character lists, embedding Python
`needle in hay` on strings. -/
def containsSub (needle : List Char) : List Char → Bool
  | [] => isPrefixList needle []
  | c :: t => isPrefixList needle (c :: t) || containsSub needle t

/-- Embedding of the guard `not url or "cnki" not in url.lower()` of
`get_paper_detail` (negated): the URL is accepted iff it is non-empty
and its lowercase form contains the substring "cnki" anywhere. -/
def isCnkiLink (url : String) : Bool :=
  (url ≠ "") && containsSub "cnki".data (lowerStr url).data

/-- Boolean suffix test on character lists. -/
def isSuffixList (a b : List Char) : Bool :=
  isPrefixList a.reverse b.reverse

/-- Scheme removal for host extraction. -/
def dropScheme (cs : List Char) : List Char :=
  if isPrefixList "https://".data cs then cs.drop 8
  else if isPrefixList "http://".data cs then cs.drop 7
  else cs

/-- Host part of a URL: everything up to the first slash after the
scheme. -/
def takeHost : List Char → List Char
  | [] => []
  | c :: cs => if c = '/' then [] else c :: takeHost cs

/-- A URL belonging to the target portal's domain, following the
specification's words for the input-rejection rule: the host of the
URL is the portal domain `cnki.net` or one of its subdomains (the code
itself navigates to `www.cnki.net` and `kns.cnki.net`). This is the
specification-side notion the code's substring guard is compared
against. -/
def belongsToPortalDomain (url : String) : Bool :=
  let h := takeHost (dropScheme (lowerStr url).data)
  (h == "cnki.net".data) || isSuffixList ".cnki.net".data h

/-- Observable outcome of running one public tool: `outcome` is the
returned payload (`Except.error` meaning an exception escaped the
tool's public contract uncaught), `leased` the pages obtained from the
pool and `closed` the pages closed, each in order. -/
structure ToolRun where
  outcome : Except String JVal
  leased : List Nat
  closed : List Nat

/-- The shared wrapper shape of the three tools (`search_cnki`,
`get_paper_detail`, `find_best_match`): `page = await
browser_pool.get_page()` outside any handler, then `try: body / except
Exception as e: result = mkErr e / finally: await page.close()`. A
fault in `get_page` itself therefore escapes unhandled, with no page
leased; once a page is leased, the body's faults are converted to the
tool's error payload and the page is closed on both paths. -/
def runGuarded (acquire : Except String Nat) (body : Nat → Except String JVal)
    (mkErr : String → JVal) : ToolRun :=
  match acquire with
  | Except.error e => ⟨Except.error e, [], []⟩
  | Except.ok pg =>
    match body pg with
    | Except.ok v => ⟨Except.ok v, [pg], [pg]⟩
    | Except.error e => ⟨Except.ok (mkErr e), [pg], [pg]⟩

/-- Embedding of the `search_cnki` tool wrapper; its error payload is
`{"isError": True, "error": str(e), "papers": []}`. -/
def search_cnki_tool (acquire : Except String Nat)
    (body : Nat → Except String JVal) : ToolRun :=
  runGuarded acquire body
    (fun e => JVal.obj
      [("isError", JVal.bool true), ("error", JVal.str e), ("papers", JVal.arr [])])

/-- Embedding of the `get_paper_detail` tool wrapper: the URL guard
runs before any pool interaction and returns the fixed error payload;
past the guard, the shared wrapper shape applies with the error payload
`{"isError": True, "error": str(e), "url": url}`. -/
def get_paper_detail_tool (url : String) (acquire : Except String Nat)
    (body : Nat → Except String JVal) : ToolRun :=
  if isCnkiLink url then
    runGuarded acquire body
      (fun e => JVal.obj
        [("isError", JVal.bool true), ("error", JVal.str e), ("url", JVal.str url)])
  else
    ⟨Except.ok (JVal.obj
      [("isError", JVal.bool true), ("error", JVal.str "URL 必须是 CNKI 链接")]), [], []⟩

/-- Embedding of the `find_best_match` tool wrapper; its error payload
is `{"isError": True, "error": str(e)}`. -/
def find_best_match_tool (acquire : Except String Nat)
    (body : Nat → Except String JVal) : ToolRun :=
  runGuarded acquire body
    (fun e => JVal.obj [("isError", JVal.bool true), ("error", JVal.str e)])

/-- Result construction at the end of the `find_best_match` body, from
the scraped parallel `titles`/`urls` lists: an empty candidate list
yields `{"query", "best_match": None, "message"}` (no candidate-count
key, no `isError` key); a non-empty one yields the best candidate by
`find_closest_title` under the key `total_results`. Indexing uses
`getD`, in bounds by the range property of `find_closest_title`. -/
def findBestMatchResult (query : String) (titles urls : List String) : JVal :=
  if titles.isEmpty then
    JVal.obj [("query", JVal.str query), ("best_match", JVal.null),
              ("message", JVal.str "未找到结果")]
  else
    JVal.obj [("query", JVal.str query),
      ("best_match", JVal.obj
        [("title", JVal.str (titles.getD (find_closest_title query titles) "")),
         ("url", JVal.str (urls.getD (find_closest_title query titles) ""))]),
      ("total_results", JVal.num titles.length)]

/-- Concrete foreign URL used to compare the code's guard with the
specification's domain rule: it does not belong to the portal's domain
but contains the substring "cnki". -/
def badCnkiUrl : String := "https://evil.example/cnki"

/-- A row whose title link is absent, as `_parse_paper_row` defaults it
to the empty title. -/
def titlelessRow : Row :=
  ⟨Fetch.absent, Fetch.absent, Fetch.absent, Fetch.absent, Fetch.absent, Fetch.absent⟩

/-- A results view with one visible, titleless row and a disabled next
control. -/
def domTitleless : Nat → ResultPage :=
  fun _ => ⟨RowsResult.ok [titlelessRow], NextOutcome.disabled⟩

/-- A row whose title link is present and every other field absent. -/
def titledRow : Row :=
  ⟨Fetch.found ("Deep Learning", some "https://kns.cnki.net/a"), Fetch.absent,
   Fetch.absent, Fetch.absent, Fetch.absent, Fetch.absent⟩

/-- A results view with the single titled row and a disabled next
control. -/
def domTitled : Nat → ResultPage :=
  fun _ => ⟨RowsResult.ok [titledRow], NextOutcome.disabled⟩

/-- Claim C4, counterexample: the resolvers are not whitespace-trimming
on the canonical-name path. The canonical name 关键词 with a trailing
blank resolves to the default 主题 instead of 关键词 (likewise 被引 for
the sort resolver), while the resolver following the specification's
words (normalized lookup in both tables) returns the canonical name;
so the claim that resolution is case- and whitespace-insensitive with
the normalized input looked up in the canonical table fails on the
code. -/
theorem claim_C4_counterexample :
    resolve_search_type "关键词 " = "主题" ∧
    resolve_search_type_claim "关键词 " = "关键词" ∧
    resolve_search_type "关键词" = "关键词" ∧
    resolve_search_type " KEYWORD " = "关键词" ∧
    resolve_sort_type "被引 " = "相关度" ∧
    resolve_sort_type_claim "被引 " = "被引" := by
  refine ⟨?_, ?_, ?_, ?_, ?_, ?_⟩ <;> rfl

/-- Invariant step for `fctAux` once the running best is a real candidate:
if `best` lies in the processed prefix `p`, scores `m` there, every
processed score is at most `m`, and every score before `best` is strictly
below `m`, then the loop result is the least index attaining the maximum
score of the whole list, and is in bounds. -/
theorem fctAux_spec_main (title : String) :
    ∀ (l p : List String) (m b : Nat),
      b < p.length →
      commonChars title ((p ++ l).getD b "") = m →
      (∀ j, j < p.length → commonChars title ((p ++ l).getD j "") ≤ m) →
      (∀ j, j < b → commonChars title ((p ++ l).getD j "") < m) →
      fctAux title l p.length m b < (p ++ l).length ∧
      (∀ j, j < (p ++ l).length →
        commonChars title ((p ++ l).getD j "") ≤
          commonChars title ((p ++ l).getD (fctAux title l p.length m b) "")) ∧
      (∀ j, j < fctAux title l p.length m b →
        commonChars title ((p ++ l).getD j "") <
          commonChars title ((p ++ l).getD (fctAux title l p.length m b) "")) := by
  intro l
  induction l with
  | nil =>
    intro p m b hb hm hub hlt
    refine ⟨by simpa using hb, ?_, ?_⟩
    · intro j hj
      rw [show fctAux title [] p.length m b = b from rfl, hm]
      exact hub j (by simpa using hj)
    · intro j hj
      rw [show fctAux title [] p.length m b = b from rfl, hm]
      exact hlt j hj
  | cons t rest ih =>
    intro p m b hb hm hub hlt
    have hassoc : p ++ t :: rest = (p ++ [t]) ++ rest := by simp
    have hlenp : (p ++ [t]).length = p.length + 1 := by simp
    have hgt : (p ++ t :: rest).getD p.length "" = t := by
      rw [List.getD_append_right p (t :: rest) "" p.length le_rfl]
      simp
    by_cases hc : commonChars title t > m
    · have step : fctAux title (t :: rest) p.length m b
          = fctAux title rest (p.length + 1) (commonChars title t) p.length := by
        simp [fctAux, hc]
      have h1 : p.length < (p ++ [t]).length := by simp
      have h2 : commonChars title (((p ++ [t]) ++ rest).getD p.length "")
          = commonChars title t := by rw [← hassoc, hgt]
      have h3 : ∀ j, j < (p ++ [t]).length →
          commonChars title (((p ++ [t]) ++ rest).getD j "") ≤ commonChars title t := by
        intro j hj
        rw [← hassoc]
        rcases Nat.lt_or_ge j p.length with hj' | hj'
        · exact le_trans (hub j hj') (le_of_lt hc)
        · have hje : j = p.length := by omega
          rw [hje, hgt]
      have h4 : ∀ j, j < p.length →
          commonChars title (((p ++ [t]) ++ rest).getD j "") < commonChars title t := by
        intro j hj
        rw [← hassoc]
        exact lt_of_le_of_lt (hub j hj) hc
      have := ih (p ++ [t]) (commonChars title t) p.length h1 h2 h3 h4
      rw [hlenp, ← hassoc] at this
      rw [step]
      exact this
    · have step : fctAux title (t :: rest) p.length m b
          = fctAux title rest (p.length + 1) m b := by
        simp [fctAux, hc]
      have h1 : b < (p ++ [t]).length := by simp; omega
      have h2 : commonChars title (((p ++ [t]) ++ rest).getD b "") = m := by
        rw [← hassoc]; exact hm
      have h3 : ∀ j, j < (p ++ [t]).length →
          commonChars title (((p ++ [t]) ++ rest).getD j "") ≤ m := by
        intro j hj
        rw [← hassoc]
        rcases Nat.lt_or_ge j p.length with hj' | hj'
        · exact hub j hj'
        · have hje : j = p.length := by
            rw [hlenp] at hj; omega
          rw [hje, hgt]
          omega
      have h4 : ∀ j, j < b →
          commonChars title (((p ++ [t]) ++ rest).getD j "") < m := by
        intro j hj
        rw [← hassoc]
        exact hlt j hj
      have := ih (p ++ [t]) m b h1 h2 h3 h4
      rw [hlenp, ← hassoc] at this
      rw [step]
      exact this

/-- Invariant for the initial phase of `fctAux`, while the running
maximum is still the initial 0 and the best index the initial 0: the
result is the least index attaining the maximum score, in bounds when
the list is non-empty, and 0 when it is empty. -/
theorem fctAux_spec_zero (title : String) :
    ∀ (l p : List String),
      (∀ j, j < p.length → commonChars title ((p ++ l).getD j "") = 0) →
      ((p ++ l ≠ [] → fctAux title l p.length 0 0 < (p ++ l).length) ∧
       (∀ j, j < (p ++ l).length →
         commonChars title ((p ++ l).getD j "") ≤
           commonChars title ((p ++ l).getD (fctAux title l p.length 0 0) "")) ∧
       (∀ j, j < fctAux title l p.length 0 0 →
         commonChars title ((p ++ l).getD j "") <
           commonChars title ((p ++ l).getD (fctAux title l p.length 0 0) "")) ∧
       (p ++ l = [] → fctAux title l p.length 0 0 = 0)) := by
  intro l
  induction l with
  | nil =>
    intro p hz
    refine ⟨?_, ?_, ?_, ?_⟩
    · intro hne
      rw [show fctAux title [] p.length 0 0 = 0 from rfl]
      exact List.length_pos.mpr hne
    · intro j hj
      rw [show fctAux title [] p.length 0 0 = 0 from rfl]
      rw [hz j (by simpa using hj)]
      exact Nat.zero_le _
    · intro j hj
      simp [fctAux] at hj
    · intro _; rfl
  | cons t rest ih =>
    intro p hz
    have hassoc : p ++ t :: rest = (p ++ [t]) ++ rest := by simp
    have hlenp : (p ++ [t]).length = p.length + 1 := by simp
    have hgt : (p ++ t :: rest).getD p.length "" = t := by
      rw [List.getD_append_right p (t :: rest) "" p.length le_rfl]
      simp
    have hnonnil : p ++ t :: rest ≠ [] := by simp
    by_cases hc : commonChars title t > 0
    · have step : fctAux title (t :: rest) p.length 0 0
          = fctAux title rest (p.length + 1) (commonChars title t) p.length := by
        simp [fctAux, hc]
      have h1 : p.length < (p ++ [t]).length := by simp
      have h2 : commonChars title (((p ++ [t]) ++ rest).getD p.length "")
          = commonChars title t := by rw [← hassoc, hgt]
      have h3 : ∀ j, j < (p ++ [t]).length →
          commonChars title (((p ++ [t]) ++ rest).getD j "") ≤ commonChars title t := by
        intro j hj
        rw [← hassoc]
        rcases Nat.lt_or_ge j p.length with hj' | hj'
        · rw [hz j hj']; exact Nat.zero_le _
        · have hje : j = p.length := by
            rw [hlenp] at hj; omega
          rw [hje, hgt]
      have h4 : ∀ j, j < p.length →
          commonChars title (((p ++ [t]) ++ rest).getD j "") < commonChars title t := by
        intro j hj
        rw [← hassoc, hz j hj]
        exact hc
      have := fctAux_spec_main title rest (p ++ [t]) (commonChars title t) p.length h1 h2 h3 h4
      rw [hlenp, ← hassoc] at this
      rw [step]
      exact ⟨fun _ => this.1, this.2.1, this.2.2, fun h => absurd h hnonnil⟩
    · have hc0 : commonChars title t = 0 := by omega
      have step : fctAux title (t :: rest) p.length 0 0
          = fctAux title rest (p.length + 1) 0 0 := by
        simp [fctAux, hc]
      have hz' : ∀ j, j < (p ++ [t]).length →
          commonChars title (((p ++ [t]) ++ rest).getD j "") = 0 := by
        intro j hj
        rw [← hassoc]
        rcases Nat.lt_or_ge j p.length with hj' | hj'
        · exact hz j hj'
        · have hje : j = p.length := by
            rw [hlenp] at hj; omega
          rw [hje, hgt, hc0]
      have := ih (p ++ [t]) hz'
      rw [hlenp, ← hassoc] at this
      rw [step]
      exact ⟨this.1, this.2.1, this.2.2.1, this.2.2.2⟩

/-- Normal form of one `BrowserPool.close` run: it always returns
`Except.ok` (teardown faults are swallowed), the resulting state holds
no browser and no running engine, and the event trace closes the
browser (if held) strictly before stopping the engine (if started),
independently of whether either underlying call raises. -/
theorem browserPool_close_eq (br : Option Nat) (pw : Bool) (lu : Int) (nid : Nat)
    (bR pR : Bool) :
    BrowserPool.close ⟨br, pw, lu, nid⟩ bR pR =
      Except.ok (⟨none, false, lu, nid⟩,
        (match br with | some b => [CloseEvent.browserClose b] | none => []) ++
        (if pw then [CloseEvent.playwrightStop] else [])) := by
  cases br <;> cases pw <;> cases bR <;> cases pR <;> rfl

/-- Claim C9: `BrowserPool.close` is idempotent and never raises, even
when the underlying browser process is already gone: it always returns
normally (`Except.ok`), tears down the Session first and the engine
second with both teardown faults swallowed, leaves neither held, and a
second `close` immediately after returns normally with no further
teardown work. -/
theorem claim_C9_shutdown_idempotent (s : PoolState) (bR pR bR' pR' : Bool) :
    ∃ s' ev, BrowserPool.close s bR pR = Except.ok (s', ev) ∧
      s'.browser = none ∧ s'.pwStarted = false ∧
      BrowserPool.close s' bR' pR' = Except.ok (s', []) ∧
      (∀ b, s.browser = some b → s.pwStarted = true →
        ev = [CloseEvent.browserClose b, CloseEvent.playwrightStop]) := by
  obtain ⟨br, pw, lu, nid⟩ := s
  refine ⟨⟨none, false, lu, nid⟩,
    (match br with | some b => [CloseEvent.browserClose b] | none => []) ++
      (if pw then [CloseEvent.playwrightStop] else []), ?_, rfl, rfl, ?_, ?_⟩
  · exact browserPool_close_eq br pw lu nid bR pR
  · simpa using browserPool_close_eq none false lu nid bR' pR'
  · intro b hb hpw
    simp only at hb hpw
    subst hpw
    cases br with
    | none => simp at hb
    | some b' =>
      obtain rfl : b' = b := by simpa using hb
      rfl

/-- Normal form of an expired-Session acquisition: the held browser `b`
is torn down, a fresh instance is launched, the timestamp becomes `now`
and the lease is granted on the fresh instance. -/
theorem get_page_expired_eq (spw : Bool) (slu : Int) (snid b : Nat) (now : Int)
    (alive : Bool) (hexp : now - slu > 600) :
    BrowserPool.get_page ⟨some b, spw, slu, snid⟩ now alive =
      (⟨some snid, true, now, snid + 1⟩, snid,
       [PoolEvent.teardown b, PoolEvent.create snid, PoolEvent.lease snid]) := by
  simp [BrowserPool.get_page, IDLE_TIMEOUT, hexp]

/-- Claim C1: when a `get_page` acquisition finds the elapsed time
since `_last_used` above the 600-second idle threshold, the held
Session `b` is torn down and a fresh Session is created before the
page lease is granted, the granted page belongs to the fresh instance
(never to `b`), and `_last_used` is updated to `now` inside the same
mutual-exclusion region (modelled as the one atomic step). -/
theorem claim_C1_expiry_recreates_session (s : PoolState) (now : Int) (alive : Bool) (b : Nat)
    (hb : s.browser = some b) (hfresh : b < s.nextId)
    (hexp : now - s.lastUsed > 600) :
    (BrowserPool.get_page s now alive).2.1 ≠ b ∧
    (BrowserPool.get_page s now alive).2.1 = s.nextId ∧
    (BrowserPool.get_page s now alive).1.browser = some s.nextId ∧
    (BrowserPool.get_page s now alive).1.lastUsed = now ∧
    (BrowserPool.get_page s now alive).2.2 =
      [PoolEvent.teardown b, PoolEvent.create s.nextId, PoolEvent.lease s.nextId] := by
  obtain ⟨sbr, spw, slu, snid⟩ := s
  simp only at hb hfresh hexp
  subst hb
  rw [get_page_expired_eq spw slu snid b now alive hexp]
  exact ⟨Ne.symm (Nat.ne_of_lt hfresh), rfl, rfl, rfl, rfl⟩

/-- Early stop of the collection loop: starting at visit `v` with any
remaining budget larger than `k`, if the first `k - 1` next-page blocks
succeed with an enabled control and the block after the `k`-th visited
page does not (absent, disabled, or raising), the loop returns exactly
the records of the `k` visited pages. -/
theorem collectAux_stops (dom : Nat → ResultPage) :
    ∀ (k rem v : Nat), 1 ≤ k → k < rem →
      (∀ i, i + 1 < k → (dom (v + i)).next = NextOutcome.enabled) →
      (dom (v + (k - 1))).next ≠ NextOutcome.enabled →
      collectAux dom v rem = pagesConcat dom v k := by
  intro k
  induction k with
  | zero => intro rem v h1; exact absurd h1 (by decide)
  | succ k' ih =>
    intro rem v hk hrem hEn hStop
    obtain ⟨r, rfl⟩ : ∃ r, rem = r + 1 := ⟨rem - 1, by omega⟩
    have hr0 : ¬ (r = 0) := by omega
    by_cases hk0 : k' = 0
    · subst hk0
      have hstop : (dom v).next ≠ NextOutcome.enabled := by simpa using hStop
      simp only [collectAux, pagesConcat, if_neg hr0]
    · have hk1 : 1 ≤ k' := by omega
      have hEn0 : (dom v).next = NextOutcome.enabled := by
        have := hEn 0 (by omega)
        simpa using this
      have hEn' : ∀ i, i + 1 < k' → (dom (v + 1 + i)).next = NextOutcome.enabled := by
        intro i hi
        have := hEn (i + 1) (by omega)
        rwa [show v + (i + 1) = v + 1 + i from by omega] at this
      have hStop' : (dom (v + 1 + (k' - 1))).next ≠ NextOutcome.enabled := by
        have := hStop
        rwa [show v + (k' + 1 - 1) = v + 1 + (k' - 1) from by omega] at this
      have hrec := ih r (v + 1) hk1 (by omega) hEn' hStop'
      simp only [collectAux, pagesConcat, if_neg hr0, hEn0]
      rw [hrec]

/-- Claim C2: if the next-page control is enabled for the first `k - 1`
page transitions and after page `k < N` it is absent, disabled, or any
advancing step raises, `_collect_results` with `page_count = N` returns
exactly the records of the first `k` pages, in page order, without any
error (the collector is a total function into record lists); a page
whose row extraction fails contributes zero records and does not abort
collection of subsequent pages. -/
theorem claim_C2_collector_stops_early (dom : Nat → ResultPage) (N k : Nat)
    (hk : 1 ≤ k) (hkN : k < N)
    (hEn : ∀ i, i + 1 < k → (dom i).next = NextOutcome.enabled)
    (hStop : (dom (k - 1)).next ≠ NextOutcome.enabled) :
    _collect_results dom N = pagesConcat dom 0 k ∧
    (∀ i, (dom i).rowsRes = RowsResult.fail → pageRecords (dom i) (i + 1) = []) := by
  constructor
  · have hEn' : ∀ i, i + 1 < k → (dom (0 + i)).next = NextOutcome.enabled := by
      intro i hi
      simpa using hEn i hi
    have hStop' : (dom (0 + (k - 1))).next ≠ NextOutcome.enabled := by simpa using hStop
    exact collectAux_stops dom k N 0 hk hkN hEn' hStop'
  · intro i h
    simp [pageRecords, h]

/-- Claim C7, amended: every visible row whose parsed title is
non-empty is included in the collector's output tagged with its source
page number, and the absence of any non-title field only yields that
field's default without excluding the record; however rows whose
extracted title is empty are dropped by the `if paper["title"]` guard
(the counterexample), so not every visible row is included. -/
theorem claim_C7_amended (dom : Nat → ResultPage) (N : Nat) (rows : List Row)
    (hN : 1 ≤ N) (hrows : (dom 0).rowsRes = RowsResult.ok rows) :
    pageRecords (dom 0) 1 =
      ((rows.map _parse_paper_row).filter (fun r => r.title ≠ "")).map (tagPage 1) ∧
    (∀ row ∈ rows, (_parse_paper_row row).title ≠ "" →
      tagPage 1 (_parse_paper_row row) ∈ _collect_results dom N) ∧
    (∀ t h, _parse_paper_row
        ⟨Fetch.found (t, h), Fetch.raises, Fetch.absent, Fetch.raises, Fetch.absent,
          Fetch.raises⟩ =
      ⟨stripStr t, h, [], "", "", "0", "0", none⟩) := by
  refine ⟨by simp [pageRecords, hrows], ?_, fun t h => rfl⟩
  intro row hmem htitle
  obtain ⟨n, rfl⟩ : ∃ n, N = n + 1 := ⟨N - 1, by omega⟩
  simp only [_collect_results, collectAux]
  apply List.mem_append_left
  simp only [pageRecords, hrows, Nat.zero_add]
  exact List.mem_map_of_mem _
    (List.mem_filter.mpr ⟨List.mem_map_of_mem _ hmem, decide_eq_true htitle⟩)

/-- Claim C6, counterexample: the guard is a substring test, not a
domain test. The URL `https://evil.example/cnki` does not belong to the
portal's domain, yet `get_paper_detail` accepts it and leases a page
(browser interaction follows), contradicting the claim that every URL
outside the portal's domain is rejected before any browser
interaction. -/
theorem claim_C6_counterexample :
    belongsToPortalDomain badCnkiUrl = false ∧
    isCnkiLink badCnkiUrl = true ∧
    (get_paper_detail_tool badCnkiUrl (Except.ok 0) (fun _ => Except.ok JVal.null)).leased
      = [0] := by
  refine ⟨rfl, rfl, rfl⟩

/-- Claim C6, amended: for every URL failing the code's guard — empty,
or not containing the substring "cnki" case-insensitively — the
detail-fetch tool returns the fixed structured error payload with no
page leased and no page closed (zero browser interaction); URLs merely
containing "cnki" pass the guard even when outside the portal's
domain. -/
theorem claim_C6_amended (url : String) (acquire : Except String Nat)
    (body : Nat → Except String JVal) (h : isCnkiLink url = false) :
    (get_paper_detail_tool url acquire body).outcome =
      Except.ok (JVal.obj
        [("isError", JVal.bool true), ("error", JVal.str "URL 必须是 CNKI 链接")]) ∧
    (get_paper_detail_tool url acquire body).leased = [] ∧
    (get_paper_detail_tool url acquire body).closed = [] := by
  simp [get_paper_detail_tool, h]

/-- Claim C5, counterexample: the page lease is acquired before the
`try` block, so a fault in `get_page` itself (for example a browser
launch failure) escapes `search_cnki` as an uncaught exception instead
of a structured error payload, contradicting the claim that no fault
arising during a public operation escapes its public contract. -/
theorem claim_C5_counterexample :
    (search_cnki_tool (Except.error "browser launch failed")
        (fun _ => Except.ok JVal.null)).outcome = Except.error "browser launch failed" ∧
    (search_cnki_tool (Except.error "browser launch failed")
        (fun _ => Except.ok JVal.null)).closed = [] := ⟨rfl, rfl⟩

/-- Claim C5, amended: once the page lease is granted, each of the
three public tools returns a payload on every body outcome — the body's
value on success, the tool's structured `isError` payload on any body
fault — and the leased page is closed on both paths; faults in
acquiring the lease itself escape the wrapper (see the
counterexample). -/
theorem claim_C5_amended (pg : Nat) (body : Nat → Except String JVal)
    (url e : String) (hurl : isCnkiLink url = true) :
    ((search_cnki_tool (Except.ok pg) body).closed = [pg] ∧
      ∃ v, (search_cnki_tool (Except.ok pg) body).outcome = Except.ok v) ∧
    ((get_paper_detail_tool url (Except.ok pg) body).closed = [pg] ∧
      ∃ v, (get_paper_detail_tool url (Except.ok pg) body).outcome = Except.ok v) ∧
    ((find_best_match_tool (Except.ok pg) body).closed = [pg] ∧
      ∃ v, (find_best_match_tool (Except.ok pg) body).outcome = Except.ok v) ∧
    (search_cnki_tool (Except.ok pg) (fun _ => Except.error e)).outcome
      = Except.ok (JVal.obj
        [("isError", JVal.bool true), ("error", JVal.str e), ("papers", JVal.arr [])]) ∧
    (get_paper_detail_tool url (Except.ok pg) (fun _ => Except.error e)).outcome
      = Except.ok (JVal.obj
        [("isError", JVal.bool true), ("error", JVal.str e), ("url", JVal.str url)]) ∧
    (find_best_match_tool (Except.ok pg) (fun _ => Except.error e)).outcome
      = Except.ok (JVal.obj [("isError", JVal.bool true), ("error", JVal.str e)]) := by
  refine ⟨⟨?_, ?_⟩, ⟨?_, ?_⟩, ⟨?_, ?_⟩, ?_, ?_, ?_⟩ <;>
    cases hb : body pg <;>
    simp [search_cnki_tool, get_paper_detail_tool, find_best_match_tool, runGuarded, hurl, hb]

/-- Claim C8, counterexample: the empty-candidate payload of
`find_best_match` has `best_match: None` and no `isError` key, but it
carries no candidate-count key at all — neither `total_candidates` (the
claimed key) nor `total_results` (the key of the non-empty branch) —
contradicting the claim that it reports a count of 0. -/
theorem claim_C8_counterexample :
    lookupField (findBestMatchResult "q" [] []) "total_candidates" = none ∧
    lookupField (findBestMatchResult "q" [] []) "total_results" = none ∧
    lookupField (findBestMatchResult "q" [] []) "best_match" = some JVal.null ∧
    lookupField (findBestMatchResult "q" [] []) "isError" = none :=
  ⟨rfl, rfl, rfl, rfl⟩

/-- Claim C8, amended: with an empty candidate list `find_best_match`
builds a success payload (no `isError` key) with `best_match: None` and
a `message` field but no candidate-count key; the count, under the key
`total_results`, appears only in the non-empty branch. -/
theorem claim_C8_amended (query : String) (ts us : List String) (h : ts ≠ []) :
    findBestMatchResult query [] [] =
      JVal.obj [("query", JVal.str query), ("best_match", JVal.null),
                ("message", JVal.str "未找到结果")] ∧
    lookupField (findBestMatchResult query [] []) "isError" = none ∧
    lookupField (findBestMatchResult query [] []) "total_results" = none ∧
    lookupField (findBestMatchResult query ts us) "total_results"
      = some (JVal.num ts.length) := by
  refine ⟨rfl, rfl, rfl, ?_⟩
  have hne : ts.isEmpty = false := by
    cases ts with
    | nil => exact absurd rfl h
    | cons a l => rfl
  simp [findBestMatchResult, hne, lookupField, List.lookup]

/-- Claim C7, counterexample: a page with one visible row whose title
element is absent yields no record at all — the row is parsed to an
empty title and then dropped, contradicting the claim that every
visible row is included with defaulted fields. -/
theorem claim_C7_counterexample :
    (domTitleless 0).rowsRes = RowsResult.ok [titlelessRow] ∧
    (_parse_paper_row titlelessRow).title = "" ∧
    _collect_results domTitleless 1 = [] :=
  ⟨rfl, rfl, rfl⟩

/-- Values produced by an association-list lookup are values of the
table. -/
theorem lookup_mem_values {tbl : List (String × String)} {k v : String}
    (h : tbl.lookup k = some v) : v ∈ tbl.map Prod.snd := by
  induction tbl with
  | nil => simp [List.lookup] at h
  | cons p rest ih =>
    rw [List.lookup] at h
    by_cases hk : k == p.1
    · simp [hk] at h
      simp [← h]
    · simp [hk] at h
      simp [ih h]

/-- Claim C4, amended: the resolvers never fail and always return a
canonical name — for every input the result is a key of the canonical
table (empty and unrecognized inputs give the defaults 主题 and 相关度)
— but normalization (lowercasing and trimming) applies to the
locale-alias lookup only: the canonical-name lookup uses the input
verbatim, so a canonical name surrounded by whitespace falls through
to the default. -/
theorem claim_C4_amended :
    (∀ st, (SEARCH_TYPES.lookup (resolve_search_type st)).isSome = true) ∧
    (∀ st, (SORT_TYPES.lookup (resolve_sort_type st)).isSome = true) ∧
    resolve_search_type "" = "主题" ∧ resolve_sort_type "" = "相关度" ∧
    resolve_search_type " KEYWORD " = "关键词" ∧
    resolve_search_type "关键词" = "关键词" ∧
    resolve_search_type "关键词 " = "主题" ∧
    resolve_search_type "nonsense" = "主题" ∧
    resolve_sort_type " CITED " = "被引" ∧
    resolve_sort_type "被引" = "被引" ∧
    resolve_sort_type "被引 " = "相关度" ∧
    resolve_sort_type "nonsense" = "相关度" := by
  have hvalS : ∀ x ∈ SEARCH_TYPE_ALIASES.map Prod.snd,
      (SEARCH_TYPES.lookup x).isSome = true := by decide
  have hvalT : ∀ x ∈ SORT_TYPE_ALIASES.map Prod.snd,
      (SORT_TYPES.lookup x).isSome = true := by decide
  refine ⟨?_, ?_, rfl, rfl, rfl, rfl, rfl, rfl, rfl, rfl, rfl, rfl⟩
  · intro st
    rw [resolve_search_type]
    by_cases h0 : st = ""
    · rw [if_pos h0]; rfl
    · rw [if_neg h0]
      rcases ha : SEARCH_TYPE_ALIASES.lookup (stripStr (lowerStr st)) with _ | v
      · by_cases hc : (SEARCH_TYPES.lookup st).isSome
        · simp [hc]
        · simp [hc]
          exact ⟨"SU", by decide⟩
      · exact hvalS v (lookup_mem_values ha)
  · intro st
    rw [resolve_sort_type]
    by_cases h0 : st = ""
    · rw [if_pos h0]; rfl
    · rw [if_neg h0]
      rcases ha : SORT_TYPE_ALIASES.lookup (stripStr (lowerStr st)) with _ | v
      · by_cases hc : (SORT_TYPES.lookup st).isSome
        · simp [hc]
        · simp [hc]
          exact ⟨"FFD", by decide⟩
      · exact hvalT v (lookup_mem_values ha)

/-- Claim C3: `find_closest_title` scores each candidate as the number
of query characters occurring anywhere in it (membership per query
character, position- and frequency-agnostic in the candidate), and
returns the least index attaining the maximum score — the strictly
best candidate when unique, the lowest index on ties, and 0 on the
empty list; in particular the claimed example evaluates to index 0. -/
theorem claim_C3_matcher_scoring (title : String) (ts : List String) :
    (∀ j, j < ts.length →
      commonChars title (ts.getD j "") ≤
        commonChars title (ts.getD (find_closest_title title ts) "")) ∧
    (∀ j, j < find_closest_title title ts →
      commonChars title (ts.getD j "") <
        commonChars title (ts.getD (find_closest_title title ts) "")) ∧
    (ts = [] → find_closest_title title ts = 0) ∧
    find_closest_title "abc" ["xabcx", "ab", "none"] = 0 ∧
    commonChars "abc" "xabcx" = 3 ∧ commonChars "abc" "ab" = 2 ∧
    commonChars "abc" "none" = 0 ∧ commonChars "aa" "a" = 2 ∧
    commonChars "abc" "cab" = 3 := by
  have h := fctAux_spec_zero title ts [] (fun j hj => absurd hj (Nat.not_lt_zero j))
  exact ⟨h.2.1, h.2.2.1, h.2.2.2, rfl, rfl, rfl, rfl, rfl, rfl⟩

/-- Claim C10: on a non-empty candidate list `find_closest_title`
returns an index within bounds, so the parallel `titles`/`urls`
indexing in `find_best_match` is always in bounds. -/
theorem claim_C10_index_in_bounds (title : String) (ts us : List String)
    (hne : ts ≠ []) (hlen : us.length = ts.length) :
    find_closest_title title ts < ts.length ∧
    find_closest_title title ts < us.length := by
  have h := fctAux_spec_zero title ts [] (fun j hj => absurd hj (Nat.not_lt_zero j))
  have h1 : find_closest_title title ts < ts.length := h.1 hne
  exact ⟨h1, by rw [hlen]; exact h1⟩

/-- Witness for claim C1 at a concrete expired state. -/
theorem claim_C1_witness :
    (BrowserPool.get_page ⟨some 0, true, 0, 1⟩ 601 true).2.1 ≠ 0 ∧
    (BrowserPool.get_page ⟨some 0, true, 0, 1⟩ 601 true).2.1 = 1 ∧
    (BrowserPool.get_page ⟨some 0, true, 0, 1⟩ 601 true).1.browser = some 1 ∧
    (BrowserPool.get_page ⟨some 0, true, 0, 1⟩ 601 true).1.lastUsed = 601 ∧
    (BrowserPool.get_page ⟨some 0, true, 0, 1⟩ 601 true).2.2 =
      [PoolEvent.teardown 0, PoolEvent.create 1, PoolEvent.lease 1] :=
  claim_C1_expiry_recreates_session ⟨some 0, true, 0, 1⟩ 601 true 0 rfl
    (by decide) (by decide)

/-- Witness for claim C2: one page with a disabled next control out of
two requested. -/
theorem claim_C2_witness :
    _collect_results domTitleless 2 = pagesConcat domTitleless 0 1 ∧
    (∀ i, (domTitleless i).rowsRes = RowsResult.fail →
      pageRecords (domTitleless i) (i + 1) = []) :=
  claim_C2_collector_stops_early domTitleless 2 1 (by decide) (by decide)
    (fun i hi => absurd hi (by omega)) (by decide)

/-- Witness for claim C3 at the specification's example. -/
theorem claim_C3_witness :
    commonChars "abc" (["xabcx", "ab", "none"].getD 1 "") ≤
      commonChars "abc"
        (["xabcx", "ab", "none"].getD
          (find_closest_title "abc" ["xabcx", "ab", "none"]) "") :=
  (claim_C3_matcher_scoring "abc" ["xabcx", "ab", "none"]).1 1 (by decide)

/-- Witness for claim C5 at a concrete leased page and failing body. -/
theorem claim_C5_witness :
    (search_cnki_tool (Except.ok 7) (fun _ => Except.error "boom")).outcome
      = Except.ok (JVal.obj
        [("isError", JVal.bool true), ("error", JVal.str "boom"),
         ("papers", JVal.arr [])]) :=
  (claim_C5_amended 7 (fun _ => Except.error "boom")
    "https://www.cnki.net/x" "boom" rfl).2.2.2.1

/-- Witness for claim C6 at a concrete URL without the substring. -/
theorem claim_C6_witness :
    (get_paper_detail_tool "https://example.com/paper" (Except.ok 0)
        (fun _ => Except.ok JVal.null)).leased = [] :=
  (claim_C6_amended "https://example.com/paper" (Except.ok 0)
    (fun _ => Except.ok JVal.null) rfl).2.1

/-- Witness for claim C7 at a one-row page whose row has a title and
no other fields. -/
theorem claim_C7_witness :
    tagPage 1 (_parse_paper_row titledRow) ∈ _collect_results domTitled 1 :=
  (claim_C7_amended domTitled 1 [titledRow] (by decide) rfl).2.1 titledRow
    (by decide) (by decide)

/-- Witness for claim C8 at a one-candidate list. -/
theorem claim_C8_witness :
    lookupField (findBestMatchResult "q" ["t1"] ["u1"]) "total_results"
      = some (JVal.num 1) :=
  (claim_C8_amended "q" ["t1"] ["u1"] (by decide)).2.2.2

/-- Witness for claim C9 at a concrete state holding a Session and a
started engine, with both teardown calls raising in turn. -/
theorem claim_C9_witness :
    ∃ s' ev, BrowserPool.close ⟨some 3, true, 0, 4⟩ true false = Except.ok (s', ev) ∧
      s'.browser = none ∧ s'.pwStarted = false ∧
      BrowserPool.close s' false true = Except.ok (s', []) ∧
      (∀ b, (⟨some 3, true, 0, 4⟩ : PoolState).browser = some b →
        (⟨some 3, true, 0, 4⟩ : PoolState).pwStarted = true →
        ev = [CloseEvent.browserClose b, CloseEvent.playwrightStop]) :=
  claim_C9_shutdown_idempotent ⟨some 3, true, 0, 4⟩ true false false true

/-- Witness for claim C10 at concrete parallel lists. -/
theorem claim_C10_witness :
    find_closest_title "abc" ["xabcx", "ab"] < 2 ∧
    find_closest_title "abc" ["xabcx", "ab"] < 2 :=
  claim_C10_index_in_bounds "abc" ["xabcx", "ab"] ["u1", "u2"] (by decide) rfl
